import Mathlib

/-!
Shallow embedding of `stac_validator/stac_validator.py` (class `StacValidate`).

External collaborators (HTTP transport via `requests`, the local filesystem,
`pystac.serialization.identify_stac_object`, and the pystac validation of the
hardcoded file performed inside `run`) are modelled as an explicit `World`
record of oracles; everything else is translated directly from the Python
source, clause by clause.  A Python call that raises an exception which the
source does not catch is modelled by `Option`/dedicated constructors: `none`
(or `.crash`) means the run aborts with an uncaught exception and produces no
result object.
-/

namespace StacValidate

/-- JSON values as produced by Python's `json` module.  Objects keep insertion
order, as Python dicts do.  Numbers are modelled as integers (no claim depends
on float payloads). -/
inductive Json where
  | null
  | bool (b : Bool)
  | num (n : Int)
  | str (s : String)
  | arr (elems : List Json)
  | obj (fields : List (String × Json))

/-- Python dict key lookup over the insertion-ordered field list. -/
def lookupField : List (String × Json) → String → Option Json
  | [], _ => none
  | (k, v) :: rest, key => if k = key then some v else lookupField rest key

/-- `d[key]` on a JSON value.  `none` models a `KeyError`/`TypeError`
(subscripting a non-dict), which no caller in the source catches. -/
def Json.get (j : Json) (key : String) : Option Json :=
  match j with
  | .obj fields => lookupField fields key
  | _ => none

/-- Python dict assignment `d[key] = v`: replaces the value in place when the
key exists (keeping its position), appends otherwise. -/
def setField : List (String × Json) → String → Json → List (String × Json)
  | [], key, v => [(key, v)]
  | (k, w) :: rest, key, v =>
    if k = key then (key, v) :: rest else (k, w) :: setField rest key v

/-- `d[key] = v` on a JSON value (no-op on non-objects; in the source the
subscripted value is always a dict at this point). -/
def Json.set (j : Json) (key : String) (v : Json) : Json :=
  match j with
  | .obj fields => .obj (setField fields key v)
  | _ => j

/-- `s.startswith("/")` on a Python string. -/
def starts_with_slash (s : String) : Bool :=
  match s.data with
  | '/' :: _ => true
  | _ => false

/-- `s.endswith("/")` on a Python string. -/
def ends_with_slash (s : String) : Bool :=
  match s.data.getLast? with
  | some '/' => true
  | _ => false

/-- One step of POSIX `os.path.join`: `join(a, b)`. -/
def os_join (a b : String) : String :=
  if starts_with_slash b then b
  else if a == "" || ends_with_slash a then a ++ b
  else a ++ "/" ++ b

/-- Characters allowed in a URL scheme by `urllib.parse` (ASCII letters,
digits, `+`, `-`, `.`). -/
def scheme_char (c : Char) : Bool :=
  c.isAlpha || c.isDigit || c = '+' || c = '-' || c = '.'

/-- The characters strictly before the first `:`, or `none` if there is no
colon. -/
def before_colon : List Char → Option (List Char)
  | [] => none
  | c :: cs => if c = ':' then some [] else (before_colon cs).map (fun l => c :: l)

/-- Scheme extraction as done by `urllib.parse.urlparse`: the text before the
first colon, provided it is nonempty, starts with an ASCII letter and consists
of scheme characters only; lower-cased.  Otherwise the scheme is empty. -/
def url_scheme (url : String) : String :=
  match before_colon url.data with
  | some (c :: cs) =>
    if c.isAlpha && (c :: cs).all scheme_char then
      String.mk ((c :: cs).map Char.toLower)
    else ""
  | _ => ""

/-- `StacValidate.is_valid_url` (lines 146-160): the parsed scheme is `http`
or `https`.  (`urlparse` never raises on a `str` argument, so the
`except Exception` arm is dead for the inputs the program passes.) -/
def is_valid_url (url : String) : Bool :=
  url_scheme url == "http" || url_scheme url == "https"

/-- `StacValidate.fix_version` (lines 83-89).  `version[0]` raises
`IndexError` on the empty string, modelled as `none`. -/
def fix_version (version : String) : Option String :=
  match version.data with
  | [] => none
  | c :: _ =>
    if c == 'm' || c == 'd' || c == 'v' then some version
    else some ("v" ++ version)

/-- Python string `<` on code points: `a < b` lexicographically, shorter
prefixes first.  `py_string_lt a b` embeds `a < b`; the source's
`self.stac_version > "v0.9.0"` is `py_string_lt "v0.9.0" self.stac_version`. -/
def py_lt_chars : List Char → List Char → Bool
  | [], [] => false
  | [], _ :: _ => true
  | _ :: _, [] => false
  | x :: xs, y :: ys =>
    if x < y then true else if y < x then false else py_lt_chars xs ys

def py_string_lt (a b : String) : Bool :=
  py_lt_chars a.data b.data

/-- The instance state set up by `StacValidate.__init__` (lines 77-81):
`self.stac_file` (stripped), `self.stac_version` (normalized), `self.dirpath`
(the `tempfile.mkdtemp()` result, a run-specific value taken as a parameter
here), `self.stac_spec_host`. -/
structure State where
  stac_file : String
  stac_version : String
  dirpath : String
  stac_spec_host : String

/-- `__init__`: `fix_version` runs first (and can raise on an empty version),
then the file argument is stripped. -/
def mk_state (stac_file stac_spec_host version dirpath : String) : Option State :=
  (fix_version version).map (fun v =>
    { stac_file := stac_file.trim, stac_version := v,
      dirpath := dirpath, stac_spec_host := stac_spec_host })

/-- Outcome of `requests.get(url).json()`: a parsed JSON body, a body that is
not JSON (`JSONDecodeError`), or a transport-level exception from
`requests.get` itself. -/
inductive HttpResult where
  | json (j : Json)
  | notJson
  | transportErr

/-- Outcome of `open(path)` followed by `json.load`: parsed JSON, a
`JSONDecodeError`, a `FileNotFoundError`, or any other `OSError`-like
exception (not caught by the source). -/
inductive LocalResult where
  | json (j : Json)
  | notJson
  | notFound
  | otherErr

/-- Outcome of the `try` block of `run` (lines 254-265): pystac loads and
validates the HARDCODED file `stac_validator/good_item_v090.json`.  It can
succeed, raise `RefResolutionError`, raise `jsonschema.ValidationError`
(carrying a message and `absolute_path`), or raise anything else (e.g.
`FileNotFoundError` from `Item.from_file`), which the source does not catch. -/
inductive PystacOutcome where
  | ok
  | refResolutionErr
  | validationErr (msg : String) (absolute_path : List String)
  | otherExc

/-- The external world: HTTP responses per URL, local filesystem reads per
path, `identify_stac_object(...).object_type.lower()` per document (with
`none` for an identification exception), and the outcome of the fixed-file
pystac validation.  Note the last one does NOT depend on the fetched
document. -/
structure World where
  httpGet : String → HttpResult
  localJson : String → LocalResult
  identify : Json → Option String
  fixedItemValidate : PystacOutcome

/-- One result object of the output message list (the dict built by `run`).
Absent keys are `none`. -/
structure Msg where
  path : String
  asset_type : Option String := none
  schema : Option String := none
  valid_stac : Option Bool := none
  error_type : Option String := none
  error_message : Option String := none
deriving DecidableEq, Repr

/-- `message.update(create_err_msg(err_type, err_msg))` (lines 162-173):
sets `valid_stac` to `False` and the two error fields. -/
def create_err_msg_update (m : Msg) (err_type err_msg : String) : Msg :=
  { m with valid_stac := some false, error_type := some err_type,
           error_message := some err_msg }

/-- Result of `fetch_and_parse_file`: parsed content, an error message pair,
or an uncaught exception. -/
inductive FetchResult where
  | ok (j : Json)
  | err (err_type err_msg : String)
  | crash

/-- `StacValidate.fetch_and_parse_file` (lines 175-205). -/
def fetch_and_parse_file (w : World) (input_path : String) : FetchResult :=
  if is_valid_url input_path then
    match w.httpGet input_path with
    | .json j => .ok j
    | .notJson => .err "InvalidJSON" (input_path ++ " is not Valid JSON")
    | .transportErr => .crash
  else
    match w.localJson input_path with
    | .json j => .ok j
    | .notJson => .err "InvalidJSON" (input_path ++ " is not Valid JSON")
    | .notFound => .err "FileNotFoundError" (input_path ++ " cannot be found")
    | .otherErr => .crash

/-- The scratch path of `fetch_common_schemas`:
`os.path.join(self.dirpath, self.stac_spec_host, self.stac_version, ref)`. -/
def scratch_path (dirpath host version r : String) : String :=
  os_join (os_join (os_join dirpath host) version) r

/-- The fetch of one sub-schema (lines 133-138): directly when the `$ref` is
an http/https URL, otherwise relative to `host/version/`. -/
def sub_schema_fetch (w : World) (host version r : String) : HttpResult :=
  if is_valid_url r then w.httpGet r
  else w.httpGet (os_join (os_join host version) r)

/-- One iteration of the loop body of `fetch_common_schemas` (lines 132-144)
on entry `e`: read `e["$ref"]` (a `KeyError`/non-string is an uncaught
exception), fetch the sub-schema (any fetch/parse failure is uncaught),
rewrite the entry's `$ref` to `file://<scratch path>` and record the
`save_schema` write of the fetched schema at the scratch path. -/
def process_entry (w : World) (dirpath host version : String) (e : Json) :
    Option (Json × (String × Json)) :=
  match Json.get e "$ref" with
  | some (.str r) =>
    match sub_schema_fetch w host version r with
    | .json sub =>
      some (Json.set e "$ref" (.str ("file://" ++ scratch_path dirpath host version r)),
            (scratch_path dirpath host version r, sub))
    | _ => none
  | _ => none

/-- The `for` loop over the `allOf` entries, first failure aborting the run. -/
def map_entries (f : Json → Option (Json × (String × Json))) :
    List Json → Option (List (Json × (String × Json)))
  | [] => some []
  | e :: es =>
    match f e with
    | none => none
    | some p => (map_entries f es).map (fun ps => p :: ps)

/-- `StacValidate.fetch_common_schemas` (lines 126-144), with the instance
attributes it reads (`self.dirpath`, `self.stac_spec_host`,
`self.stac_version`) passed explicitly.  Returns the mutated root schema and
the list of `save_schema` writes `(path, schema)` in loop order.  A missing
`definitions`/`common_metadata`/`allOf` key is an uncaught `KeyError`.  The
two degenerate arms mirror Python's `for i in x` when `x` is an empty dict or
empty string (zero iterations, no mutation); any other non-list `allOf` value
raises on its first iteration. -/
def fetch_common_schemas_core (w : World) (dirpath host version : String)
    (s : Json) : Option (Json × List (String × Json)) :=
  match Json.get s "definitions" with
  | none => none
  | some defs =>
    match Json.get defs "common_metadata" with
    | none => none
    | some cm =>
      match Json.get cm "allOf" with
      | some (.arr es) =>
        match map_entries (process_entry w dirpath host version) es with
        | none => none
        | some ps =>
          some (Json.set s "definitions"
                  (Json.set defs "common_metadata"
                    (Json.set cm "allOf" (.arr (ps.map Prod.fst)))),
                ps.map Prod.snd)
      | some (.obj []) => some (s, [])
      | some (.str "") => some (s, [])
      | _ => none

/-- `fetch_common_schemas` as a method: reads the three attributes off the
instance state. -/
def fetch_common_schemas (w : World) (st : State) (s : Json) :
    Option (Json × List (String × Json)) :=
  fetch_common_schemas_core w st.dirpath st.stac_spec_host st.stac_version s

/-- The root schema URL of `run` (line 236):
`os.path.join(self.stac_spec_host, self.stac_version, f"{self.stac_type}.json")`. -/
def schema_url_of (st : State) (stac_type : String) : String :=
  os_join (os_join st.stac_spec_host st.stac_version) (stac_type ++ ".json")

/-- The error-message formatting of the `except ValidationError` arm
(lines 271-277). -/
def format_validation_err (msg : String) (absolute_path : List String) : String :=
  if absolute_path.isEmpty then msg ++ " of the root of the STAC object"
  else msg ++ ". Error is in " ++ String.intercalate " -> " absolute_path

/-- The `try`/`except` block of `run` (lines 254-278).  NOTE: per the source,
the validation performed is of the hardcoded file
`stac_validator/good_item_v090.json` (via pystac); the fetched document and
the resolved schema are NOT consulted (`validate(stac_content, schema_json)`
is commented out). -/
def run_validate (w : World) (m : Msg) : Option Msg :=
  match w.fixedItemValidate with
  | .ok => some { m with valid_stac := some true }
  | .refResolutionErr =>
    some (create_err_msg_update { m with valid_stac := some false }
      "RefResolutionError" "JSON Reference Resolution Error.")
  | .validationErr em p =>
    some (create_err_msg_update m "ValidationError" (format_validation_err em p))
  | .otherExc => none

/-- A completed run: the message list (always a single result object) and the
`save_schema` disk writes in order (root schema first, then the common
sub-schemas). -/
structure RunOut where
  msgs : List Msg
  writes : List (String × Json)

/-- `StacValidate.run` (lines 207-282).  `none` models an uncaught
exception (no result produced). -/
def run (w : World) (st : State) : Option RunOut :=
  match fetch_and_parse_file w st.stac_file with
  | .crash => none
  | .err t e =>
    some { msgs := [create_err_msg_update { path := st.stac_file } t e],
           writes := [] }
  | .ok content =>
    match w.identify content with
    | none => none
    | some stac_type =>
      match w.httpGet (schema_url_of st stac_type) with
      | .transportErr => none
      | .notJson =>
        some { msgs := [create_err_msg_update
                 { path := st.stac_file, asset_type := some stac_type }
                 "SchemaError" "Cannot get schema to validate against"],
               writes := [] }
      | .json schema_json =>
        match (if stac_type == "item" && py_string_lt "v0.9.0" st.stac_version
               then (fetch_common_schemas w st schema_json).map Prod.snd
               else some []) with
        | none => none
        | some common_writes =>
          match run_validate w
              { path := st.stac_file, asset_type := some stac_type,
                schema := some (schema_url_of st stac_type) } with
          | none => none
          | some m =>
            some { msgs := [m],
                   writes := (os_join st.dirpath (schema_url_of st stac_type),
                              schema_json) :: common_writes }

/-- The `definitions.common_metadata.allOf` access path of
`fetch_common_schemas`. -/
def all_of_of (s : Json) : Option Json :=
  (Json.get s "definitions").bind (fun d =>
    (Json.get d "common_metadata").bind (fun c => Json.get c "allOf"))

end StacValidate

namespace StacValidate

example : fix_version "0.9.0" = some "v0.9.0" := by decide
example : fix_version "master" = some "master" := by decide
example : fix_version "" = none := by decide
example : is_valid_url "https://cdn.staclint.com" = true := by decide
example : is_valid_url "stac_item.json" = false := by decide
example : os_join (os_join "/tmp/a" "https://cdn.staclint.com") "v1.0.0"
    = "/tmp/a/https://cdn.staclint.com/v1.0.0" := by decide
example : py_string_lt "v0.9.0" "v1.0.0" = true := by decide
example : py_string_lt "v0.9.0" "v0.9.0" = false := by decide
example : py_string_lt "v0.9.0" "master" = false := by decide
example : is_valid_url "http://h/x.json" = true := by decide
example : format_validation_err "'id' is a required property" ["properties", "id"]
    = "'id' is a required property. Error is in properties -> id" := by decide
example : scratch_path "/tmp/a" "https://cdn.staclint.com" "v1.0.0" "basics.json"
    = "/tmp/a/https://cdn.staclint.com/v1.0.0/basics.json" := by decide
example : schema_url_of
    { stac_file := "f", stac_version := "v0.9.0", dirpath := "/tmp/x",
      stac_spec_host := "https://cdn.staclint.com" } "item"
    = "https://cdn.staclint.com/v0.9.0/item.json" := by decide

/-! ### Concrete fixtures used by witnesses and counterexamples -/

/-- A document that is not a valid STAC Item (it has none of the required
Item fields). -/
def c1_bad_doc : Json := .obj [("type", .str "Feature")]

/-- A second, different fetched document. -/
def c1_other_doc : Json := .obj [("stac_version", .str "0.9.0")]

/-- A world in which the schema host serves an empty schema, the local file
holds `c1_bad_doc`, identification says `item`, and the pystac validation of
the hardcoded file `stac_validator/good_item_v090.json` succeeds. -/
def c1_world : World :=
  { httpGet := fun _ => .json (.obj []),
    localJson := fun _ => .json c1_bad_doc,
    identify := fun _ => some "item",
    fixedItemValidate := .ok }

/-- Same world, but the fetched document is entirely different. -/
def c1_world2 : World :=
  { c1_world with localJson := fun _ => .json c1_other_doc }

def c1_state : State :=
  { stac_file := "bad_item.json", stac_version := "v0.9.0", dirpath := "/tmp/run",
    stac_spec_host := "https://cdn.staclint.com" }

def c2_world : World :=
  { httpGet := fun _ => .json (.bool true),
    localJson := fun _ => .notFound,
    identify := fun _ => none,
    fixedItemValidate := .ok }

/-- An `allOf` entry carrying a relative `$ref`. -/
def c2_entry : Json := .obj [("$ref", .str "basics.json")]

/-- A root schema with a single common-metadata `$ref` entry. -/
def c2_schema : Json :=
  .obj [("definitions",
    .obj [("common_metadata", .obj [("allOf", .arr [c2_entry])])])]

def c2_state_a : State :=
  { stac_file := "item.json", stac_version := "v1.0.0", dirpath := "/tmp/run1",
    stac_spec_host := "https://cdn.staclint.com" }

/-- Identical inputs per the claim, but a different per-run scratch dir. -/
def c2_state_b : State := { c2_state_a with dirpath := "/tmp/run2" }

/-- Identical resolver-relevant state, different unrelated field. -/
def c2_state_c : State := { c2_state_a with stac_file := "other.json" }

/-! ### Claim theorems -/

/-- C1 (code bug, evaluated at the failing input): the validation step of
`run` validates the hardcoded file `stac_validator/good_item_v090.json` via
pystac and never consults the fetched document or the resolved schema (the
`validate(stac_content, schema_json)` call is commented out in the source),
so a run over a document that is not a valid STAC Item still reports
`valid_stac = true`, and the outcome is unchanged when the fetched document
is replaced by a completely different one. -/
theorem c1_fixed_file_validation_bug :
    run c1_world c1_state
      = some { msgs := [{ path := "bad_item.json", asset_type := some "item",
                          schema := some "https://cdn.staclint.com/v0.9.0/item.json",
                          valid_stac := some true }],
               writes := [("/tmp/run/https://cdn.staclint.com/v0.9.0/item.json",
                           .obj [])] } ∧
    run c1_world2 c1_state
      = some { msgs := [{ path := "bad_item.json", asset_type := some "item",
                          schema := some "https://cdn.staclint.com/v0.9.0/item.json",
                          valid_stac := some true }],
               writes := [("/tmp/run/https://cdn.staclint.com/v0.9.0/item.json",
                           .obj [])] } :=
  ⟨rfl, rfl⟩

/-- C2 counterexample: two resolutions with the same object type, the same
normalized version, the same schema host and the same remote schema contents
(the same world), differing only in the per-run scratch directory created by
`tempfile.mkdtemp()`, rewrite the root schema to different content: the
rewritten `$ref`s embed the scratch directory path. -/
theorem c2_rewrite_not_input_determined :
    c2_state_a.stac_spec_host = c2_state_b.stac_spec_host ∧
    c2_state_a.stac_version = c2_state_b.stac_version ∧
    fetch_common_schemas c2_world c2_state_a c2_schema ≠
      fetch_common_schemas c2_world c2_state_b c2_schema := by
  refine ⟨rfl, rfl, fun h => ?_⟩
  have h2 := congrArg (fun o => Option.map (fun p => List.map Prod.fst p.2) o) h
  revert h2
  decide

/-- C2 amended: the `$ref` rewriting of `fetch_common_schemas` is a
deterministic function of the schema host, the normalized version, the remote
schema contents AND the per-run scratch directory; for a fixed scratch
directory, resolving the same bundle twice yields identical rewritten
content (the result does not depend on any other instance state). -/
theorem c2_rewrite_deterministic (w : World) (st1 st2 : State) (s : Json)
    (h1 : st1.dirpath = st2.dirpath)
    (h2 : st1.stac_spec_host = st2.stac_spec_host)
    (h3 : st1.stac_version = st2.stac_version) :
    fetch_common_schemas w st1 s = fetch_common_schemas w st2 s := by
  unfold fetch_common_schemas
  rw [h1, h2, h3]

theorem c2_rewrite_deterministic_witness :
    fetch_common_schemas c2_world c2_state_a c2_schema =
      fetch_common_schemas c2_world c2_state_c c2_schema :=
  c2_rewrite_deterministic c2_world c2_state_a c2_state_c c2_schema rfl rfl rfl

/-- C3: `fix_version` prepends `v` exactly when the first character is not
`m`, `d` or `v`, and in particular `"0.9.0" ↦ "v0.9.0"` while `"master"`,
`"dev"` and `"v1.0.0"` are unchanged. -/
theorem c3_fix_version_normalization (v : String) (c : Char) (cs : List Char)
    (h : v.data = c :: cs) :
    (c ∉ (['m', 'd', 'v'] : List Char) → fix_version v = some ("v" ++ v)) ∧
    (c ∈ (['m', 'd', 'v'] : List Char) → fix_version v = some v) ∧
    fix_version "0.9.0" = some "v0.9.0" ∧
    fix_version "master" = some "master" ∧
    fix_version "dev" = some "dev" ∧
    fix_version "v1.0.0" = some "v1.0.0" := by
  refine ⟨?_, ?_, by decide, by decide, by decide, by decide⟩
  · intro hc
    simp only [List.mem_cons, List.not_mem_nil, or_false, not_or] at hc
    simp [fix_version, h, hc.1, hc.2.1, hc.2.2]
  · intro hc
    simp only [List.mem_cons, List.not_mem_nil, or_false] at hc
    rcases hc with rfl | rfl | rfl <;> simp [fix_version, h]

theorem c3_fix_version_normalization_witness :
    fix_version "0.9.0" = some ("v" ++ "0.9.0") :=
  (c3_fix_version_normalization "0.9.0" '0' ['.', '9', '.', '0'] (by decide)).1
    (by decide)

/-- C9: `fix_version` is partial at its interface: it fails on the empty
version string (unguarded indexing of the first character), and it is total
on every nonempty version string, which is therefore the precondition each
caller must guarantee. -/
theorem c9_fix_version_empty_crash :
    fix_version "" = none ∧ ∀ v : String, v ≠ "" → ∃ r, fix_version v = some r := by
  refine ⟨rfl, ?_⟩
  intro v hv
  obtain ⟨data⟩ := v
  cases data with
  | nil => exact absurd rfl hv
  | cons c cs =>
    cases hb : (c == 'm' || c == 'd' || c == 'v') with
    | true => exact ⟨⟨c :: cs⟩, by simp [fix_version, hb]⟩
    | false => exact ⟨"v" ++ ⟨c :: cs⟩, by simp [fix_version, hb]⟩

theorem c9_fix_version_empty_crash_witness :
    fix_version "" = none ∧ ∃ r, fix_version "1.0.0" = some r :=
  ⟨c9_fix_version_empty_crash.1, c9_fix_version_empty_crash.2 "1.0.0" (by decide)⟩

/-! ### Helper lemmas -/

/-- The embedded Python string comparison agrees with the mathematical
lexicographic order on the underlying character lists. -/
theorem py_lt_chars_iff_lex (xs : List Char) : ∀ ys : List Char,
    py_lt_chars xs ys = true ↔ List.Lex (· < ·) xs ys := by
  induction xs with
  | nil =>
    intro ys
    cases ys with
    | nil => simp [py_lt_chars]
    | cons y ys => simp only [py_lt_chars]; simp; exact List.Lex.nil
  | cons x xs ih =>
    intro ys
    cases ys with
    | nil => simp [py_lt_chars]
    | cons y ys =>
      simp only [py_lt_chars]
      by_cases hxy : x < y
      · simp only [hxy, if_true]
        simp
        exact List.Lex.rel hxy
      · by_cases hyx : y < x
        · simp only [hxy, if_false, hyx, if_true]
          simp
          intro hl
          cases hl with
          | cons h => exact absurd hyx (lt_irrefl _)
          | rel h => exact hxy h
        · have hxyeq : x = y := le_antisymm (le_of_not_lt hyx) (le_of_not_lt hxy)
          subst hxyeq
          simp only [hxy, if_false]
          rw [List.Lex.cons_iff]
          exact ih ys

theorem py_string_lt_iff_lex (a b : String) :
    py_string_lt a b = true ↔ List.Lex (· < ·) a.data b.data :=
  py_lt_chars_iff_lex a.data b.data

/-- A successful traversal of the `allOf` entries yields one output per
entry. -/
theorem map_entries_forall2 (f : Json → Option (Json × (String × Json))) :
    ∀ es ps, map_entries f es = some ps →
      List.Forall₂ (fun e p => f e = some p) es ps := by
  intro es
  induction es with
  | nil =>
    intro ps h
    simp only [map_entries, Option.some.injEq] at h
    subst h
    exact List.Forall₂.nil
  | cons e es ih =>
    intro ps h
    simp only [map_entries] at h
    cases hf : f e with
    | none => rw [hf] at h; exact absurd h (by simp)
    | some p =>
      rw [hf] at h
      cases hm : map_entries f es with
      | none => rw [hm] at h; exact absurd h (by simp)
      | some ps2 =>
        rw [hm] at h
        simp only [Option.map_some', Option.some.injEq] at h
        subst h
        exact List.Forall₂.cons hf (ih ps2 hm)

theorem map_entries_length (f : Json → Option (Json × (String × Json)))
    (es : List Json) (ps : List (Json × (String × Json)))
    (h : map_entries f es = some ps) : ps.length = es.length :=
  (List.Forall₂.length_eq (map_entries_forall2 f es ps h)).symm

/-- Zipping the two projections of a pair list recovers the list. -/
theorem zip_map_fst_snd_pairs {α β : Type} :
    ∀ ps : List (α × β), (ps.map Prod.fst).zip (ps.map Prod.snd) = ps := by
  intro ps
  induction ps with
  | nil => rfl
  | cons p ps ih => simp [List.zip_cons_cons, ih]

/-- Reading back a key just written by the Python dict assignment. -/
theorem lookup_setField (fs : List (String × Json)) (k : String) (v : Json) :
    lookupField (setField fs k v) k = some v := by
  induction fs with
  | nil => simp [setField, lookupField]
  | cons f fs ih =>
    by_cases hk : f.1 = k
    · simp [setField, hk, lookupField]
    · simp [setField, hk, lookupField, ih]

theorem get_set_same (j : Json) (k : String) (v u : Json)
    (h : Json.get j k = some u) : Json.get (Json.set j k v) k = some v := by
  cases j with
  | obj fields => simp [Json.set, Json.get, lookup_setField]
  | null => exact absurd h (by simp [Json.get])
  | bool b => exact absurd h (by simp [Json.get])
  | num n => exact absurd h (by simp [Json.get])
  | str s => exact absurd h (by simp [Json.get])
  | arr es => exact absurd h (by simp [Json.get])

/-- C4: the common-metadata resolution of `run` happens if and only if the
identified type is `item` AND the normalized version is strictly greater than
`v0.9.0` in the lexicographic (code point) string order; when it does not
happen, the run writes only the root schema to disk, and when it happens it
writes one sub-schema per `definitions.common_metadata.allOf` entry after the
root schema. -/
theorem c4_common_metadata_guard (w : World) (st : State) (content : Json)
    (t : String) (s : Json) (es : List Json)
    (hf : fetch_and_parse_file w st.stac_file = .ok content)
    (hi : w.identify content = some t)
    (hs : w.httpGet (schema_url_of st t) = .json s) :
    ((t == "item" && py_string_lt "v0.9.0" st.stac_version) = true ↔
      (t = "item" ∧ List.Lex (· < ·) "v0.9.0".data st.stac_version.data)) ∧
    (¬ (t = "item" ∧ List.Lex (· < ·) "v0.9.0".data st.stac_version.data) →
      ∀ out, run w st = some out →
        out.writes = [(os_join st.dirpath (schema_url_of st t), s)]) ∧
    ((t = "item" ∧ List.Lex (· < ·) "v0.9.0".data st.stac_version.data) →
      all_of_of s = some (.arr es) →
      ∀ out, run w st = some out → out.writes.length = 1 + es.length) := by
  have hguard : (t == "item" && py_string_lt "v0.9.0" st.stac_version) = true ↔
      (t = "item" ∧ List.Lex (· < ·) "v0.9.0".data st.stac_version.data) := by
    rw [Bool.and_eq_true, beq_iff_eq, py_string_lt_iff_lex]
  refine ⟨hguard, ?_, ?_⟩
  · intro hng out hrun
    have hg : (t == "item" && py_string_lt "v0.9.0" st.stac_version) = false := by
      cases hb : (t == "item" && py_string_lt "v0.9.0" st.stac_version) with
      | false => rfl
      | true => exact absurd (hguard.mp hb) hng
    rw [run] at hrun
    simp only [hf, hi, hs, hg] at hrun
    cases hv : w.fixedItemValidate with
    | ok =>
      simp [run_validate, hv] at hrun
      simp [← hrun]
    | refResolutionErr =>
      simp [run_validate, hv] at hrun
      simp [← hrun]
    | validationErr em p =>
      simp [run_validate, hv] at hrun
      simp [← hrun]
    | otherExc => simp [run_validate, hv] at hrun
  · intro hg hall out hrun
    have hgb : (t == "item" && py_string_lt "v0.9.0" st.stac_version) = true :=
      hguard.mpr hg
    rw [run] at hrun
    simp only [hf, hi, hs, hgb] at hrun
    rw [fetch_common_schemas, fetch_common_schemas_core] at hrun
    rw [all_of_of] at hall
    cases hd : Json.get s "definitions" with
    | none => simp [hd] at hall
    | some defs =>
      simp only [hd, Option.some_bind] at hall
      simp only [hd] at hrun
      cases hc : Json.get defs "common_metadata" with
      | none => simp [hc] at hall
      | some cm =>
        simp only [hc, Option.some_bind] at hall
        simp only [hc] at hrun
        simp only [hall] at hrun
        cases hm : map_entries (process_entry w st.dirpath st.stac_spec_host
            st.stac_version) es with
        | none => simp [hm] at hrun
        | some ps =>
          simp only [hm, Option.map_some'] at hrun
          have hlen := map_entries_length _ _ _ hm
          cases hv : w.fixedItemValidate with
          | ok =>
            simp [run_validate, hv] at hrun
            simp [← hrun, hlen, Nat.add_comm]
          | refResolutionErr =>
            simp [run_validate, hv] at hrun
            simp [← hrun, hlen, Nat.add_comm]
          | validationErr em p =>
            simp [run_validate, hv] at hrun
            simp [← hrun, hlen, Nat.add_comm]
          | otherExc => simp [run_validate, hv] at hrun

/-- A fetched document used by the C4 witness. -/
def c4_doc : Json := .obj [("type", .str "Feature")]

/-- A world whose schema host serves `c2_schema` for every URL, whose local
file holds `c4_doc`, identified as an `item`. -/
def c4_world : World :=
  { httpGet := fun _ => .json c2_schema,
    localJson := fun _ => .json c4_doc,
    identify := fun _ => some "item",
    fixedItemValidate := .ok }

theorem c4_common_metadata_guard_witness :
    ∃ out, run c4_world c2_state_a = some out ∧ out.writes.length = 1 + 1 := by
  have h := (c4_common_metadata_guard c4_world c2_state_a c4_doc "item"
      c2_schema [c2_entry] rfl rfl rfl).2.2
    ⟨rfl, (py_string_lt_iff_lex "v0.9.0" "v1.0.0").mp (by decide)⟩ rfl
  exact ⟨_, rfl, h _ rfl⟩

/-- What C5 asserts of one processed `allOf` entry `e` and its (rewritten
entry, disk write) pair `pr`: the original `$ref` is some string `r`, the
fetched sub-schema is persisted at the scratch path mirroring
`host/version/r` under the run's scratch directory, and the entry's `$ref`
is rewritten to the `file://` URI of exactly that path. -/
def c5_rel (w : World) (dirpath host version : String)
    (e : Json) (pr : Json × (String × Json)) : Prop :=
  ∃ r sub, Json.get e "$ref" = some (.str r) ∧
    sub_schema_fetch w host version r = .json sub ∧
    pr.2.1 = scratch_path dirpath host version r ∧
    pr.2.2 = sub ∧
    pr.1 = Json.set e "$ref"
      (.str ("file://" ++ scratch_path dirpath host version r))

/-- C5: for every entry of `definitions.common_metadata.allOf` processed by a
successful `fetch_common_schemas`, the fetched sub-schema is written at the
scratch path `join(dirpath, host, version, <original $ref>)` and the entry's
in-memory `$ref` is rewritten to the `file://` URI of that same path; there
is one write and one rewritten entry per original entry, in order. -/
theorem c5_scratch_persist_and_rewrite (w : World) (st : State) (s : Json)
    (es : List Json) (res : Json) (ws : List (String × Json))
    (hall : all_of_of s = some (.arr es))
    (h : fetch_common_schemas w st s = some (res, ws)) :
    ws.length = es.length ∧
    ∃ es2, all_of_of res = some (.arr es2) ∧
      List.Forall₂ (c5_rel w st.dirpath st.stac_spec_host st.stac_version)
        es (es2.zip ws) := by
  rw [fetch_common_schemas, fetch_common_schemas_core] at h
  rw [all_of_of] at hall
  cases hd : Json.get s "definitions" with
  | none => simp [hd] at hall
  | some defs =>
    simp only [hd, Option.some_bind] at hall
    simp only [hd] at h
    cases hc : Json.get defs "common_metadata" with
    | none => simp [hc] at hall
    | some cm =>
      simp only [hc, Option.some_bind] at hall
      simp only [hc] at h
      simp only [hall] at h
      cases hm : map_entries (process_entry w st.dirpath st.stac_spec_host
          st.stac_version) es with
      | none => simp [hm] at h
      | some ps =>
        simp only [hm, Option.some.injEq, Prod.mk.injEq] at h
        obtain ⟨hres, hws⟩ := h
        subst hres
        subst hws
        refine ⟨by simp [map_entries_length _ _ _ hm], ps.map Prod.fst, ?_, ?_⟩
        · rw [all_of_of]
          rw [get_set_same s "definitions" _ defs hd, Option.some_bind]
          rw [get_set_same defs "common_metadata" _ cm hc, Option.some_bind]
          exact get_set_same cm "allOf" _ (.arr es) hall
        · rw [zip_map_fst_snd_pairs]
          refine List.Forall₂.imp ?_ (map_entries_forall2 _ es ps hm)
          intro e pr hpe
          rw [process_entry] at hpe
          cases hr : Json.get e "$ref" with
          | none => simp [hr] at hpe
          | some rj =>
            cases rj with
            | str r =>
              simp only [hr] at hpe
              cases hsf : sub_schema_fetch w st.stac_spec_host
                  st.stac_version r with
              | json sub =>
                simp only [hsf, Option.some.injEq] at hpe
                subst hpe
                exact ⟨r, sub, hr, hsf, rfl, rfl, rfl⟩
              | notJson => simp [hsf] at hpe
              | transportErr => simp [hsf] at hpe
            | null => simp [hr] at hpe
            | bool b => simp [hr] at hpe
            | num n => simp [hr] at hpe
            | arr es3 => simp [hr] at hpe
            | obj fs => simp [hr] at hpe

/-- The root schema rewritten by the C5 witness resolution. -/
def c5_res : Json :=
  .obj [("definitions",
    .obj [("common_metadata", .obj [("allOf",
      .arr [.obj [("$ref",
        .str "file:///tmp/run1/https://cdn.staclint.com/v1.0.0/basics.json")]])])])]

/-- The disk writes of the C5 witness resolution. -/
def c5_ws : List (String × Json) :=
  [("/tmp/run1/https://cdn.staclint.com/v1.0.0/basics.json", .bool true)]

theorem c5_scratch_persist_and_rewrite_witness :
    c5_ws.length = [c2_entry].length ∧
    ∃ es2, all_of_of c5_res = some (.arr es2) ∧
      List.Forall₂ (c5_rel c2_world c2_state_a.dirpath c2_state_a.stac_spec_host
        c2_state_a.stac_version) [c2_entry] (es2.zip c5_ws) :=
  c5_scratch_persist_and_rewrite c2_world c2_state_a c2_schema [c2_entry]
    c5_res c5_ws rfl rfl

/-- The two error kinds `fetch_and_parse_file` can report, and the fact that
`FileNotFoundError` arises only on the local-file branch. -/
theorem fetch_err_shape (w : World) (p t e : String)
    (h : fetch_and_parse_file w p = .err t e) :
    t = "InvalidJSON" ∨ (t = "FileNotFoundError" ∧ is_valid_url p = false) := by
  rw [fetch_and_parse_file] at h
  cases hu : is_valid_url p with
  | true =>
    simp only [hu, eq_self_iff_true, if_true] at h
    cases hh : w.httpGet p with
    | json j => simp [hh] at h
    | notJson => simp only [hh, FetchResult.err.injEq] at h; exact Or.inl h.1.symm
    | transportErr => simp [hh] at h
  | false =>
    simp only [hu, Bool.false_eq_true, if_false] at h
    cases hl : w.localJson p with
    | json j => simp [hl] at h
    | notJson => simp only [hl, FetchResult.err.injEq] at h; exact Or.inl h.1.symm
    | notFound =>
      simp only [hl, FetchResult.err.injEq] at h
      exact Or.inr ⟨h.1.symm, rfl⟩
    | otherErr => simp [hl] at h

/-- Every result object a run can produce, by shape. -/
theorem run_msg_shape (w : World) (st : State) (out : RunOut) (m : Msg)
    (h : run w st = some out) (hm : m ∈ out.msgs) :
    (∃ t e, m = create_err_msg_update { path := st.stac_file } t e ∧
      (t = "InvalidJSON" ∨
        (t = "FileNotFoundError" ∧ is_valid_url st.stac_file = false))) ∨
    (∃ t, m = create_err_msg_update
      { path := st.stac_file, asset_type := some t }
      "SchemaError" "Cannot get schema to validate against") ∨
    (∃ t, m = { path := st.stac_file, asset_type := some t,
                schema := some (schema_url_of st t),
                valid_stac := some true }) ∨
    (∃ t, m = create_err_msg_update
      { path := st.stac_file, asset_type := some t,
        schema := some (schema_url_of st t), valid_stac := some false }
      "RefResolutionError" "JSON Reference Resolution Error.") ∨
    (∃ t em p, m = create_err_msg_update
      { path := st.stac_file, asset_type := some t,
        schema := some (schema_url_of st t) }
      "ValidationError" (format_validation_err em p)) := by
  rw [run] at h
  cases hf2 : fetch_and_parse_file w st.stac_file with
  | crash => simp [hf2] at h
  | err t e =>
    simp only [hf2, Option.some.injEq] at h
    subst h
    simp only [List.mem_singleton] at hm
    subst hm
    exact Or.inl ⟨t, e, rfl, fetch_err_shape w st.stac_file t e hf2⟩
  | ok content =>
    simp only [hf2] at h
    cases hi2 : w.identify content with
    | none => simp [hi2] at h
    | some t =>
      simp only [hi2] at h
      cases hh : w.httpGet (schema_url_of st t) with
      | transportErr => simp [hh] at h
      | notJson =>
        simp only [hh, Option.some.injEq] at h
        subst h
        simp only [List.mem_singleton] at hm
        subst hm
        exact Or.inr (Or.inl ⟨t, rfl⟩)
      | json sj =>
        simp only [hh] at h
        cases hcw : (if t == "item" && py_string_lt "v0.9.0" st.stac_version
            then (fetch_common_schemas w st sj).map Prod.snd
            else some []) with
        | none => rw [hcw] at h; exact Option.noConfusion h
        | some cw =>
          rw [hcw] at h
          cases hv : w.fixedItemValidate with
          | ok =>
            simp only [run_validate, hv, Option.some.injEq] at h
            subst h
            simp only [List.mem_singleton] at hm
            subst hm
            exact Or.inr (Or.inr (Or.inl ⟨t, rfl⟩))
          | refResolutionErr =>
            simp only [run_validate, hv, Option.some.injEq] at h
            subst h
            simp only [List.mem_singleton] at hm
            subst hm
            exact Or.inr (Or.inr (Or.inr (Or.inl ⟨t, rfl⟩)))
          | validationErr em p =>
            simp only [run_validate, hv, Option.some.injEq] at h
            subst h
            simp only [List.mem_singleton] at hm
            subst hm
            exact Or.inr (Or.inr (Or.inr (Or.inr ⟨t, em, p, rfl⟩)))
          | otherExc => simp [run_validate, hv] at h

/-- C6: every result object produced by a run has either
`valid_stac = true` and no error fields, or `valid_stac = false` together
with both error fields — never both and never neither. -/
theorem c6_result_invariant (w : World) (st : State) (out : RunOut) (m : Msg)
    (h : run w st = some out) (hm : m ∈ out.msgs) :
    (m.valid_stac = some true ∧ m.error_type = none ∧ m.error_message = none) ∨
    (m.valid_stac = some false ∧ m.error_type.isSome ∧ m.error_message.isSome) := by
  rcases run_msg_shape w st out m h hm with
    ⟨t, e, rfl, _⟩ | ⟨t, rfl⟩ | ⟨t, rfl⟩ | ⟨t, rfl⟩ | ⟨t, em, p, rfl⟩
  · exact Or.inr ⟨rfl, rfl, rfl⟩
  · exact Or.inr ⟨rfl, rfl, rfl⟩
  · exact Or.inl ⟨rfl, rfl, rfl⟩
  · exact Or.inr ⟨rfl, rfl, rfl⟩
  · exact Or.inr ⟨rfl, rfl, rfl⟩

/-- The success message of the run over `c1_world`. -/
def c6_msg : Msg :=
  { path := "bad_item.json", asset_type := some "item",
    schema := some "https://cdn.staclint.com/v0.9.0/item.json",
    valid_stac := some true }

def c6_out : RunOut :=
  { msgs := [c6_msg],
    writes := [("/tmp/run/https://cdn.staclint.com/v0.9.0/item.json", .obj [])] }

theorem c6_result_invariant_witness :
    (c6_msg.valid_stac = some true ∧ c6_msg.error_type = none ∧
      c6_msg.error_message = none) ∨
    (c6_msg.valid_stac = some false ∧ c6_msg.error_type.isSome ∧
      c6_msg.error_message.isSome) :=
  c6_result_invariant c1_world c1_state c6_out c6_msg rfl
    (List.mem_cons_self c6_msg [])

/-- C7: unparseable content yields an `InvalidJSON` result with
`valid_stac = false` (on both the URL branch and the local branch), and a
nonexistent local path yields a `FileNotFoundError` result with
`valid_stac = false`. -/
theorem c7_fetch_error_results (w : World) (st : State) :
    (is_valid_url st.stac_file = true → w.httpGet st.stac_file = .notJson →
      ∃ m, run w st = some { msgs := [m], writes := [] } ∧
        m.error_type = some "InvalidJSON" ∧ m.valid_stac = some false ∧
        m.error_message = some (st.stac_file ++ " is not Valid JSON")) ∧
    (is_valid_url st.stac_file = false → w.localJson st.stac_file = .notJson →
      ∃ m, run w st = some { msgs := [m], writes := [] } ∧
        m.error_type = some "InvalidJSON" ∧ m.valid_stac = some false ∧
        m.error_message = some (st.stac_file ++ " is not Valid JSON")) ∧
    (is_valid_url st.stac_file = false → w.localJson st.stac_file = .notFound →
      ∃ m, run w st = some { msgs := [m], writes := [] } ∧
        m.error_type = some "FileNotFoundError" ∧ m.valid_stac = some false ∧
        m.error_message = some (st.stac_file ++ " cannot be found")) := by
  refine ⟨?_, ?_, ?_⟩ <;> intro h1 h2
  · refine ⟨create_err_msg_update { path := st.stac_file } "InvalidJSON"
      (st.stac_file ++ " is not Valid JSON"), ?_, rfl, rfl, rfl⟩
    rw [run]
    simp [fetch_and_parse_file, h1, h2]
  · refine ⟨create_err_msg_update { path := st.stac_file } "InvalidJSON"
      (st.stac_file ++ " is not Valid JSON"), ?_, rfl, rfl, rfl⟩
    rw [run]
    simp [fetch_and_parse_file, h1, h2]
  · refine ⟨create_err_msg_update { path := st.stac_file } "FileNotFoundError"
      (st.stac_file ++ " cannot be found"), ?_, rfl, rfl, rfl⟩
    rw [run]
    simp [fetch_and_parse_file, h1, h2]

def c7_world : World :=
  { httpGet := fun _ => .notJson,
    localJson := fun p => if p == "missing.json" then .notFound else .notJson,
    identify := fun _ => none,
    fixedItemValidate := .ok }

def c7_state_url : State :=
  { stac_file := "http://host/doc.json", stac_version := "master",
    dirpath := "/tmp/run", stac_spec_host := "https://cdn.staclint.com" }

def c7_state_bad : State := { c7_state_url with stac_file := "bad.json" }

def c7_state_missing : State := { c7_state_url with stac_file := "missing.json" }

theorem c7_fetch_error_results_witness :
    (∃ m, run c7_world c7_state_url = some { msgs := [m], writes := [] } ∧
      m.error_type = some "InvalidJSON" ∧ m.valid_stac = some false ∧
      m.error_message = some (c7_state_url.stac_file ++ " is not Valid JSON")) ∧
    (∃ m, run c7_world c7_state_bad = some { msgs := [m], writes := [] } ∧
      m.error_type = some "InvalidJSON" ∧ m.valid_stac = some false ∧
      m.error_message = some (c7_state_bad.stac_file ++ " is not Valid JSON")) ∧
    (∃ m, run c7_world c7_state_missing = some { msgs := [m], writes := [] } ∧
      m.error_type = some "FileNotFoundError" ∧ m.valid_stac = some false ∧
      m.error_message = some (c7_state_missing.stac_file ++ " cannot be found")) :=
  ⟨(c7_fetch_error_results c7_world c7_state_url).1 (by decide) rfl,
   (c7_fetch_error_results c7_world c7_state_bad).2.1 (by decide) rfl,
   (c7_fetch_error_results c7_world c7_state_missing).2.2 (by decide) rfl⟩

/-- C8: a schema-validation failure produces `valid_stac = false` with
`error_type = "ValidationError"`, the message being the library failure
message followed by ". Error is in " and the " -> "-joined element path when
one exists, and otherwise by " of the root of the STAC object". -/
theorem c8_validation_error_result (w : World) (st : State) (content : Json)
    (t : String) (s : Json) (cw : List (String × Json)) (em : String)
    (p : List String)
    (hf : fetch_and_parse_file w st.stac_file = .ok content)
    (hi : w.identify content = some t)
    (hs : w.httpGet (schema_url_of st t) = .json s)
    (hr : (if t == "item" && py_string_lt "v0.9.0" st.stac_version
           then (fetch_common_schemas w st s).map Prod.snd
           else some []) = some cw)
    (hv : w.fixedItemValidate = .validationErr em p) :
    run w st = some
      { msgs :=
          [{ path := st.stac_file, asset_type := some t,
             schema := some (schema_url_of st t), valid_stac := some false,
             error_type := some "ValidationError",
             error_message := some (if p = []
               then em ++ " of the root of the STAC object"
               else em ++ ". Error is in " ++ String.intercalate " -> " p) }],
        writes := (os_join st.dirpath (schema_url_of st t), s) :: cw } := by
  rw [run]
  simp only [hf, hi, hs, hr, run_validate, hv, create_err_msg_update,
    format_validation_err]
  cases p with
  | nil => simp
  | cons a as => simp

def c8_world_path : World :=
  { httpGet := fun _ => .json (.obj []),
    localJson := fun _ => .json c4_doc,
    identify := fun _ => some "catalog",
    fixedItemValidate :=
      .validationErr "'id' is a required property" ["properties", "id"] }

def c8_world_root : World :=
  { c8_world_path with fixedItemValidate := .validationErr "'type' mismatch" [] }

def c8_state : State :=
  { stac_file := "doc.json", stac_version := "v1.0.0", dirpath := "/tmp/run",
    stac_spec_host := "https://cdn.staclint.com" }

theorem c8_validation_error_result_witness :
    run c8_world_path c8_state = some
      { msgs :=
          [{ path := "doc.json", asset_type := some "catalog",
             schema := some "https://cdn.staclint.com/v1.0.0/catalog.json",
             valid_stac := some false, error_type := some "ValidationError",
             error_message :=
               some "'id' is a required property. Error is in properties -> id" }],
        writes := [("/tmp/run/https://cdn.staclint.com/v1.0.0/catalog.json",
                    .obj [])] } ∧
    run c8_world_root c8_state = some
      { msgs :=
          [{ path := "doc.json", asset_type := some "catalog",
             schema := some "https://cdn.staclint.com/v1.0.0/catalog.json",
             valid_stac := some false, error_type := some "ValidationError",
             error_message :=
               some "'type' mismatch of the root of the STAC object" }],
        writes := [("/tmp/run/https://cdn.staclint.com/v1.0.0/catalog.json",
                    .obj [])] } :=
  ⟨c8_validation_error_result c8_world_path c8_state c4_doc "catalog" (.obj [])
      [] "'id' is a required property" ["properties", "id"] rfl rfl rfl rfl rfl,
   c8_validation_error_result c8_world_root c8_state c4_doc "catalog" (.obj [])
      [] "'type' mismatch" [] rfl rfl rfl rfl rfl⟩

/-- C10: for a source that is a syntactically valid http/https URL, a
non-JSON response body yields an `InvalidJSON` result, and no run over such a
source can ever produce a `FileNotFoundError` result. -/
theorem c10_url_never_file_not_found (w : World) (st : State)
    (hurl : is_valid_url st.stac_file = true) :
    (w.httpGet st.stac_file = .notJson →
      ∃ m, run w st = some { msgs := [m], writes := [] } ∧
        m.error_type = some "InvalidJSON" ∧ m.valid_stac = some false) ∧
    (∀ out m, run w st = some out → m ∈ out.msgs →
      m.error_type ≠ some "FileNotFoundError") := by
  constructor
  · intro h2
    refine ⟨create_err_msg_update { path := st.stac_file } "InvalidJSON"
      (st.stac_file ++ " is not Valid JSON"), ?_, rfl, rfl⟩
    rw [run]
    simp [fetch_and_parse_file, hurl, h2]
  · intro out m h hm
    rcases run_msg_shape w st out m h hm with
      ⟨t, e, rfl, ht⟩ | ⟨t, rfl⟩ | ⟨t, rfl⟩ | ⟨t, rfl⟩ | ⟨t, em, p, rfl⟩
    · rcases ht with rfl | ⟨rfl, hfalse⟩
      · simp [create_err_msg_update]
      · rw [hurl] at hfalse
        exact absurd hfalse (by simp)
    · simp [create_err_msg_update]
    · simp
    · simp [create_err_msg_update]
    · simp [create_err_msg_update]

def c10_world : World :=
  { httpGet := fun _ => .notJson,
    localJson := fun _ => .notFound,
    identify := fun _ => none,
    fixedItemValidate := .ok }

theorem c10_url_never_file_not_found_witness :
    (c10_world.httpGet c7_state_url.stac_file = .notJson →
      ∃ m, run c10_world c7_state_url = some { msgs := [m], writes := [] } ∧
        m.error_type = some "InvalidJSON" ∧ m.valid_stac = some false) ∧
    (∀ out m, run c10_world c7_state_url = some out → m ∈ out.msgs →
      m.error_type ≠ some "FileNotFoundError") :=
  c10_url_never_file_not_found c10_world c7_state_url (by decide)

end StacValidate
